import Mathlib

/-!
# Battle simulation core: shallow embedding

A shallow embedding of the in-memory battle simulation (Go reference
implementation: battle data types, `calculateDamage`, `processBattleTurn`,
`loadBattleState`/`saveBattleState`, and the handler-level precondition
checks of `MakeMoveHandler` / `StartBattleHandler`).

Go `int` values are modelled as `Int`; `float64` arithmetic in the damage
formula is modelled exactly over `ℚ`, with Go's float-to-int conversion
(truncation toward zero) modelled by `Int.tdiv` on the rational's numerator
and denominator.  The two randomness points (the computer's uniformly
random move index and the two damage variance factors) are passed in as
explicit parameters.
-/

namespace Battle

/-- `PokemonStats` (Go struct): hp, attack, defense, speed. -/
structure PokemonStats where
  hp : Int
  attack : Int
  defense : Int
  speed : Int
deriving Repr, DecidableEq, Inhabited

/-- `PokemonMove` (Go struct): name, power, type, PP (max), CurrentPP. -/
structure PokemonMove where
  name : String
  power : Int
  type : String
  pp : Int
  currentPP : Int
deriving Repr, DecidableEq, Inhabited

/-- `BattlePokemon` (Go struct): one combatant's in-battle snapshot. -/
structure BattlePokemon where
  pokemonId : Int
  name : String
  currentHP : Int
  maxHP : Int
  types : List String
  spriteUrl : String
  moves : List PokemonMove
  stats : PokemonStats
deriving Repr, DecidableEq, Inhabited

/-- `TurnAction` (Go struct): one executed attack, recorded in history. -/
structure TurnAction where
  turn : Nat
  actor : String
  action : String
  moveName : String
  damage : Int
  message : String
  timestamp : String
deriving Repr, DecidableEq, Inhabited

/-- `BattleState` (Go struct): the aggregate battle session. -/
structure BattleState where
  battleId : String
  userId : String
  playerPokemon : BattlePokemon
  computerPokemon : BattlePokemon
  currentTurn : String
  battleStatus : String
  createdAt : String
  updatedAt : String
  turnHistory : List TurnAction
deriving Repr, DecidableEq, Inhabited

/-- `TurnResult` (Go struct): the outcome reported for one resolved round.
The Go zero value has `nil` actions, `false`, `""`. -/
structure TurnResult where
  playerAction : Option TurnAction
  computerAction : Option TurnAction
  battleEnded : Bool
  winner : String
deriving Repr, DecidableEq, Inhabited

/-- Go's `strings.EqualFold` restricted to the simple case-folding used by
move names: case-insensitive equality, character-wise lowercasing. -/
def eqFold (a b : String) : Bool :=
  a.data.map Char.toLower == b.data.map Char.toLower

/-- Index of the first move in the list whose name matches `name`
case-insensitively — the search order of the `for i, move := range` loop in
`processBattleTurn`. -/
def findMoveIdx : List PokemonMove → String → Option Nat
  | [], _ => none
  | m :: ms, name =>
    if eqFold m.name name then some 0
    else (findMoveIdx ms name).map (· + 1)

/-- Replace the `i`-th element of a move list by `f` of it (models an
in-place update through a pointer into the Go slice). -/
def listModify (f : PokemonMove → PokemonMove) : Nat → List PokemonMove → List PokemonMove
  | _, [] => []
  | 0, m :: ms => f m :: ms
  | n + 1, m :: ms => m :: listModify f n ms

/-- `move.CurrentPP--` on one move. -/
def decPP (m : PokemonMove) : PokemonMove :=
  { m with currentPP := m.currentPP - 1 }

/-- Go's `int(x)` conversion from `float64`: truncation toward zero,
modelled exactly on `ℚ` (floor for non-negative values, ceiling — written
as a negated floor — for negative ones). -/
def goTrunc (q : ℚ) : Int :=
  if 0 ≤ q then ⌊q⌋ else -⌊-q⌋

/-- `calculateDamage` (Go):
`baseDamage := float64((2*level+10)*attacker.Stats.Attack*move.Power) / float64(250*defender.Stats.Defense)`
with `level = 50`, then `damage := int(baseDamage * randomFactor)`, and a
final clamp `if damage < 1 { damage = 1 }`.  The random factor
`0.85 + rand.Float64()*0.15` is passed in as `randomFactor`. -/
def calculateDamage (attacker defender : BattlePokemon) (move : PokemonMove)
    (randomFactor : ℚ) : Int :=
  let level : Int := 50
  let baseDamage : ℚ :=
    (((2 * level + 10) * attacker.stats.attack * move.power : Int) : ℚ) /
      (((250 * defender.stats.defense : Int) : ℚ))
  let damage : Int := goTrunc (baseDamage * randomFactor)
  if damage < 1 then 1 else damage

/-- `processBattleTurn` (Go).  `computerMoveIndex` stands for
`rand.Intn(len(battle.ComputerPokemon.Moves))`, `r1`/`r2` for the two
damage random factors and `now` for the round's timestamp string. -/
def processBattleTurn (battle : BattleState) (playerMoveName : String)
    (computerMoveIndex : Nat) (r1 r2 : ℚ) (now : String) :
    Except String (BattleState × TurnResult) :=
  let turnNumber := battle.turnHistory.length + 1
  match findMoveIdx battle.playerPokemon.moves playerMoveName with
  | none => .error ("move " ++ playerMoveName ++ " not found")
  | some pIdx =>
    let playerMove := battle.playerPokemon.moves.getD pIdx default
    if playerMove.currentPP ≤ 0 then
      .error ("move " ++ playerMoveName ++ " has no PP left")
    else
      let computerMove := battle.computerPokemon.moves.getD computerMoveIndex default
      let playerGoesFirst :=
        battle.playerPokemon.stats.speed ≥ battle.computerPokemon.stats.speed
      let firstActor := if playerGoesFirst then "player" else "computer"
      let secondActor := if playerGoesFirst then "computer" else "player"
      let firstMove := if playerGoesFirst then playerMove else computerMove
      let secondMove := if playerGoesFirst then computerMove else playerMove
      let firstAttacker :=
        if playerGoesFirst then battle.playerPokemon else battle.computerPokemon
      let firstTarget :=
        if playerGoesFirst then battle.computerPokemon else battle.playerPokemon
      -- First attack
      let damage1 := calculateDamage firstAttacker firstTarget firstMove r1
      let firstTargetHP := max 0 (firstTarget.currentHP - damage1)
      let battle1 :=
        if playerGoesFirst then
          { battle with
            computerPokemon := { battle.computerPokemon with currentHP := firstTargetHP },
            playerPokemon := { battle.playerPokemon with
              moves := listModify decPP pIdx battle.playerPokemon.moves } }
        else
          { battle with
            playerPokemon := { battle.playerPokemon with currentHP := firstTargetHP },
            computerPokemon := { battle.computerPokemon with
              moves := listModify decPP computerMoveIndex battle.computerPokemon.moves } }
      let firstAction : TurnAction :=
        { turn := turnNumber, actor := firstActor, action := "attack",
          moveName := firstMove.name, damage := damage1,
          message := firstAttacker.name ++ " used " ++ firstMove.name ++
            "! It dealt " ++ toString damage1 ++ " damage!",
          timestamp := now }
      let battle2 := { battle1 with turnHistory := battle1.turnHistory ++ [firstAction] }
      let result1 : TurnResult :=
        if playerGoesFirst then
          { playerAction := some firstAction, computerAction := none,
            battleEnded := false, winner := "" }
        else
          { playerAction := none, computerAction := some firstAction,
            battleEnded := false, winner := "" }
      -- Check if battle is over after first attack
      if firstTargetHP ≤ 0 then
        if firstActor = "player" then
          .ok ({ battle2 with battleStatus := "won", currentTurn := "finished" },
               { result1 with battleEnded := true, winner := "player" })
        else
          .ok ({ battle2 with battleStatus := "lost", currentTurn := "finished" },
               { result1 with battleEnded := true, winner := "computer" })
      else
        -- Second attack (if the first did not end the battle)
        let secondAttacker :=
          if playerGoesFirst then battle2.computerPokemon else battle2.playerPokemon
        let secondTarget :=
          if playerGoesFirst then battle2.playerPokemon else battle2.computerPokemon
        let damage2 := calculateDamage secondAttacker secondTarget secondMove r2
        let secondTargetHP := max 0 (secondTarget.currentHP - damage2)
        let battle3 :=
          if playerGoesFirst then
            { battle2 with
              playerPokemon := { battle2.playerPokemon with currentHP := secondTargetHP },
              computerPokemon := { battle2.computerPokemon with
                moves := listModify decPP computerMoveIndex battle2.computerPokemon.moves } }
          else
            { battle2 with
              computerPokemon := { battle2.computerPokemon with currentHP := secondTargetHP },
              playerPokemon := { battle2.playerPokemon with
                moves := listModify decPP pIdx battle2.playerPokemon.moves } }
        let secondAction : TurnAction :=
          { turn := turnNumber, actor := secondActor, action := "attack",
            moveName := secondMove.name, damage := damage2,
            message := secondAttacker.name ++ " used " ++ secondMove.name ++
              "! It dealt " ++ toString damage2 ++ " damage!",
            timestamp := now }
        let battle4 := { battle3 with turnHistory := battle3.turnHistory ++ [secondAction] }
        let result2 :=
          if playerGoesFirst then { result1 with computerAction := some secondAction }
          else { result1 with playerAction := some secondAction }
        -- Check if battle is over after second attack
        if secondTargetHP ≤ 0 then
          if secondActor = "player" then
            .ok ({ battle4 with battleStatus := "won", currentTurn := "finished" },
                 { result2 with battleEnded := true, winner := "player" })
          else
            .ok ({ battle4 with battleStatus := "lost", currentTurn := "finished" },
                 { result2 with battleEnded := true, winner := "computer" })
        else
          .ok ({ battle4 with currentTurn := "player" }, result2)

/-- The in-memory battle store (`battleStore` map), modelled as an
association list; insertion prepends (later entries shadow earlier ones,
observationally the same as Go map insert). -/
def Store := List (String × BattleState)

/-- Map lookup on the store. -/
def storeGet : List (String × BattleState) → String → Option BattleState
  | [], _ => none
  | (k, v) :: rest, key => if k = key then some v else storeGet rest key

/-- `saveBattleState` (Go): `battleStore[battle.BattleId] = battle`. -/
def storePut (store : List (String × BattleState)) (b : BattleState) :
    List (String × BattleState) :=
  (b.battleId, b) :: store

/-- `loadBattleState` (Go): map lookup, then an ownership check; both
failure modes return the same `"battle not found"` error. -/
def loadBattleState (store : List (String × BattleState)) (battleId userId : String) :
    Except String BattleState :=
  match storeGet store battleId with
  | none => .error "battle not found"
  | some battle =>
    if battle.userId ≠ userId then .error "battle not found"
    else .ok battle

/-- The battle session assembled by `StartBattleHandler` (Go): fresh id
`{userId}_{unixSeconds}`, player goes first, active status, empty history. -/
def mkBattle (userId : String) (unixSec : Int) (playerPokemon computerPokemon : BattlePokemon)
    (now : String) : BattleState :=
  { battleId := userId ++ "_" ++ toString unixSec,
    userId := userId,
    playerPokemon := playerPokemon,
    computerPokemon := computerPokemon,
    currentTurn := "player",
    battleStatus := "active",
    createdAt := now,
    updatedAt := now,
    turnHistory := [] }

/-- The core of `MakeMoveHandler` (Go), after HTTP glue: load the session
(ownership-checked), check the battle is active and it is the player's
turn, resolve the turn, stamp `updatedAt` and save.  Returns the
(possibly unchanged) store together with the outcome. -/
def makeMove (store : List (String × BattleState)) (battleId userId moveName : String)
    (computerMoveIndex : Nat) (r1 r2 : ℚ) (now : String) :
    (List (String × BattleState)) × Except String (BattleState × TurnResult) :=
  match loadBattleState store battleId userId with
  | .error _ => (store, .error "Battle not found")
  | .ok battle =>
    if battle.battleStatus ≠ "active" then
      (store, .error "Battle is not active")
    else if battle.currentTurn ≠ "player" then
      (store, .error "It's not your turn")
    else
      match processBattleTurn battle moveName computerMoveIndex r1 r2 now with
      | .error e => (store, .error e)
      | .ok (battle', result) =>
        let battle'' := { battle' with updatedAt := now }
        (storePut store battle'', .ok (battle'', result))

/-- The status/turn-holder consistency invariant of a session:
`status ≠ active ⟺ currentTurnHolder = finished`. -/
def statusConsistent (b : BattleState) : Prop :=
  b.battleStatus ≠ "active" ↔ b.currentTurn = "finished"

instance (b : BattleState) : Decidable (statusConsistent b) := by
  unfold statusConsistent; infer_instance

/-- Modelled from the spec: the damage formula exactly as §4.3 words it —
the base is floored to an integer first, and the random factor is applied
to that floored base, with a final minimum-damage clamp of 1. -/
def claimDamage (attack defense power : Int) (r : ℚ) : Int :=
  let base : Int := ⌊(((2 * 50 + 10) * attack * power : Int) : ℚ) / (((250 * defense : Int) : ℚ))⌋
  max (⌊(base : ℚ) * r⌋) 1

/-- The exhibited spec-formula random factor for a given exact base `B` and
drawn factor `r` (see `calculateDamage_refines_claim`). -/
def chooseRQ (B r : ℚ) : ℚ :=
  if ⌊B⌋ ≤ 0 then 17/20 else max (17/20) ((⌊B * r⌋ : ℚ) / ((⌊B⌋ : ℚ)))

/-- `chooseRQ` applied to the damage computation's exact rational base. -/
def chooseR (a d : BattlePokemon) (m : PokemonMove) (r : ℚ) : ℚ :=
  chooseRQ ((((2 * 50 + 10) * a.stats.attack * m.power : Int) : ℚ) /
    (((250 * d.stats.defense : Int) : ℚ))) r

/-- The act preconditions of the claim: battle absent/not owned, battle not
active, not the player's turn, player move not found, or matched player move
exhausted — checked in the handler's order. -/
def actPreconditionFails (store : List (String × BattleState)) (battleId userId moveName : String) : Bool :=
  match loadBattleState store battleId userId with
  | .error _ => true
  | .ok battle =>
    if battle.battleStatus ≠ "active" then true
    else if battle.currentTurn ≠ "player" then true
    else
      match findMoveIdx battle.playerPokemon.moves moveName with
      | none => true
      | some i => decide ((battle.playerPokemon.moves.getD i default).currentPP ≤ 0)

def cx1P : BattlePokemon :=
  { pokemonId := 25, name := "pikachu", currentHP := 100, maxHP := 100,
    types := ["electric"], spriteUrl := "",
    moves := [{ name := "tackle", power := 40, type := "normal", pp := 35, currentPP := 35 }],
    stats := { hp := 100, attack := 10, defense := 10, speed := 90 } }

def cx1C : BattlePokemon :=
  { pokemonId := 129, name := "magikarp", currentHP := 100, maxHP := 100,
    types := ["water"], spriteUrl := "",
    moves := [{ name := "splash", power := 40, type := "normal", pp := 1, currentPP := 1 }],
    stats := { hp := 100, attack := 10, defense := 10, speed := 50 } }

def cx1B : BattleState := mkBattle "alice" 1 cx1P cx1C "t0"

def cx1round2 : Except String (BattleState × TurnResult) :=
  (processBattleTurn cx1B "tackle" 0 (9/10) (9/10) "t1").bind
    (fun p => processBattleTurn p.1 "tackle" 0 (9/10) (9/10) "t2")

def cx2P : BattlePokemon :=
  { pokemonId := 25, name := "pikachu", currentHP := 100, maxHP := 100,
    types := ["electric"], spriteUrl := "",
    moves := [{ name := "tackle", power := 40, type := "normal", pp := 35, currentPP := 35 }],
    stats := { hp := 100, attack := 10, defense := 10, speed := 90 } }

def cx2C : BattlePokemon :=
  { pokemonId := 7, name := "squirtle", currentHP := 100, maxHP := 100,
    types := ["water"], spriteUrl := "",
    moves := [{ name := "bubble", power := 40, type := "water", pp := 30, currentPP := 30 }],
    stats := { hp := 100, attack := 10, defense := 10, speed := 50 } }

def cx2B : BattleState := mkBattle "bob" 2 cx2P cx2C "t0"

def cx2round2 : Except String (BattleState × TurnResult) :=
  (processBattleTurn cx2B "tackle" 0 (9/10) (9/10) "t1").bind
    (fun p => processBattleTurn p.1 "tackle" 0 (9/10) (9/10) "t2")

def cx3A : BattlePokemon :=
  { pokemonId := 1, name := "atk", currentHP := 100, maxHP := 100,
    types := [], spriteUrl := "",
    moves := [{ name := "poke", power := 5, type := "normal", pp := 10, currentPP := 10 }],
    stats := { hp := 100, attack := 25, defense := 10, speed := 10 } }

def cx3D : BattlePokemon :=
  { pokemonId := 2, name := "dfn", currentHP := 100, maxHP := 100,
    types := [], spriteUrl := "",
    moves := [{ name := "poke", power := 5, type := "normal", pp := 10, currentPP := 10 }],
    stats := { hp := 100, attack := 10, defense := 22, speed := 10 } }

def cx3M : PokemonMove :=
  { name := "poke", power := 5, type := "normal", pp := 10, currentPP := 10 }

def w1P : BattlePokemon :=
  { pokemonId := 25, name := "pikachu", currentHP := 100, maxHP := 100,
    types := ["electric"], spriteUrl := "",
    moves := [{ name := "tackle", power := 40, type := "normal", pp := 35, currentPP := 35 }],
    stats := { hp := 100, attack := 10, defense := 10, speed := 90 } }

def w1C : BattlePokemon :=
  { pokemonId := 7, name := "squirtle", currentHP := 100, maxHP := 100,
    types := ["water"], spriteUrl := "",
    moves := [{ name := "bubble", power := 40, type := "water", pp := 30, currentPP := 30 }],
    stats := { hp := 100, attack := 10, defense := 10, speed := 50 } }

def w1B : BattleState := mkBattle "alice" 1 w1P w1C "t0"

def w1After : BattleState × TurnResult :=
  match processBattleTurn w1B "tackle" 0 (9/10) (9/10) "t1" with
  | .ok p => p
  | .error _ => default

def w2B : BattleState := mkBattle "carol" 3 w1P w1C "t0"

def w2After : BattleState × TurnResult :=
  match processBattleTurn w2B "tackle" 0 (9/10) (9/10) "t1" with
  | .ok p => p
  | .error _ => default

def w4Battle : BattleState := mkBattle "dave" 4 w1P w1C "t0"

def w4BattleWon : BattleState :=
  { w4Battle with battleStatus := "won", currentTurn := "finished" }

def w4Store : List (String × BattleState) := [(w4BattleWon.battleId, w4BattleWon)]

def w6C : BattlePokemon :=
  { pokemonId := 7, name := "squirtle", currentHP := 10, maxHP := 100,
    types := ["water"], spriteUrl := "",
    moves := [{ name := "bubble", power := 40, type := "water", pp := 30, currentPP := 30 }],
    stats := { hp := 100, attack := 10, defense := 10, speed := 50 } }

def w6B : BattleState := mkBattle "erin" 5 w1P w6C "t0"

def w6After : BattleState × TurnResult :=
  match processBattleTurn w6B "tackle" 0 (9/10) (9/10) "t1" with
  | .ok p => p
  | .error _ => default

def w7tackle : PokemonMove := { name := "tackle", power := 40, type := "normal", pp := 35, currentPP := 35 }

def w7P : BattlePokemon :=
  { pokemonId := 25, name := "pikachu", currentHP := 100, maxHP := 100,
    types := ["electric"], spriteUrl := "", moves := [w7tackle],
    stats := { hp := 100, attack := 10, defense := 10, speed := 90 } }

def w7C : BattlePokemon :=
  { pokemonId := 7, name := "squirtle", currentHP := 100, maxHP := 100,
    types := ["water"], spriteUrl := "", moves := [w7tackle],
    stats := { hp := 100, attack := 10, defense := 10, speed := 50 } }

def w7B : BattleState := mkBattle "alice" 1 w7P w7C "t0"

def w7After : BattleState × TurnResult :=
  match processBattleTurn w7B "tackle" 0 (9/10) (9/10) "t1" with
  | .ok p => p
  | .error _ => default

def w8B : BattleState := mkBattle "fred" 6 w1P w1C "t0"

def w8After : BattleState × TurnResult :=
  match processBattleTurn w8B "tackle" 0 (9/10) (9/10) "t1" with
  | .ok p => p
  | .error _ => default

def w9B : BattleState := mkBattle "hank" 8 w1P w1C "t0"

def w9After : BattleState × TurnResult :=
  match processBattleTurn w9B "tackle" 0 (9/10) (9/10) "t1" with
  | .ok p => p
  | .error _ => default

def w10A : BattlePokemon :=
  { pokemonId := 3, name := "atkten", currentHP := 100, maxHP := 100,
    types := [], spriteUrl := "",
    moves := [{ name := "poke", power := 5, type := "normal", pp := 10, currentPP := 10 }],
    stats := { hp := 100, attack := 25, defense := 10, speed := 10 } }

def w10D : BattlePokemon :=
  { pokemonId := 4, name := "dfnten", currentHP := 100, maxHP := 100,
    types := [], spriteUrl := "",
    moves := [{ name := "poke", power := 5, type := "normal", pp := 10, currentPP := 10 }],
    stats := { hp := 100, attack := 10, defense := 22, speed := 10 } }

def w10M : PokemonMove :=
  { name := "poke", power := 5, type := "normal", pp := 10, currentPP := 10 }

theorem one_le_calculateDamage (a d : BattlePokemon) (m : PokemonMove) (r : ℚ) :
    1 ≤ calculateDamage a d m r := by
  unfold calculateDamage
  dsimp only
  split
  · omega
  · omega

theorem max_hp_lower (hp d : Int) : 0 ≤ max 0 (hp - d) := le_max_left 0 _

theorem max_hp_upper (hp mx d : Int) (h0 : 0 ≤ hp) (h1 : hp ≤ mx) (hd : 1 ≤ d) :
    max 0 (hp - d) ≤ mx := by omega

theorem max_hp_mono (hp d : Int) (h0 : 0 ≤ hp) (hd : 1 ≤ d) : max 0 (hp - d) ≤ hp := by
  omega

theorem all_nonneg_modify (moves : List PokemonMove) (i : Nat)
    (hall : moves.all (fun m => decide (0 ≤ m.currentPP)) = true)
    (hi : ¬ (moves.getD i default).currentPP ≤ 0) :
    (listModify decPP i moves).all (fun m => decide (0 ≤ m.currentPP)) = true := by
  induction moves generalizing i with
  | nil => simp [listModify]
  | cons m ms ih =>
    simp only [List.all_cons, Bool.and_eq_true, decide_eq_true_eq] at hall
    cases i with
    | zero =>
      simp only [List.getD_cons_zero] at hi
      simp only [listModify, decPP, List.all_cons, Bool.and_eq_true, decide_eq_true_eq]
      exact ⟨by omega, by simpa using hall.2⟩
    | succ n =>
      simp only [List.getD_cons_succ] at hi
      simp only [listModify, List.all_cons, Bool.and_eq_true, decide_eq_true_eq]
      exact ⟨hall.1, ih n (by simpa using hall.2) hi⟩

theorem processBattleTurn_err_not_found (battle : BattleState) (name now : String)
    (cmIdx : Nat) (r1 r2 : ℚ)
    (hfm : findMoveIdx battle.playerPokemon.moves name = none) :
    processBattleTurn battle name cmIdx r1 r2 now = .error ("move " ++ name ++ " not found") := by
  rw [processBattleTurn, hfm]

theorem processBattleTurn_err_no_pp (battle : BattleState) (name now : String)
    (cmIdx pIdx : Nat) (r1 r2 : ℚ)
    (hfm : findMoveIdx battle.playerPokemon.moves name = some pIdx)
    (hpp : (battle.playerPokemon.moves.getD pIdx default).currentPP ≤ 0) :
    processBattleTurn battle name cmIdx r1 r2 now =
      .error ("move " ++ name ++ " has no PP left") := by
  rw [processBattleTurn, hfm]
  dsimp only
  rw [if_pos hpp]

theorem refine_core (B r : ℚ) (hB : 0 ≤ B) (hr1 : (17/20 : ℚ) ≤ r) (hr2 : r < 1) :
    (17/20 : ℚ) ≤ chooseRQ B r ∧ chooseRQ B r ≤ 1 ∧
    (if goTrunc (B * r) < 1 then 1 else goTrunc (B * r)) =
      max (⌊(⌊B⌋ : ℚ) * chooseRQ B r⌋) 1 := by
  have hr0 : (0 : ℚ) ≤ r := le_trans (by norm_num) hr1
  have hBr0 : (0 : ℚ) ≤ B * r := mul_nonneg hB hr0
  have hBrB : B * r ≤ B := mul_le_of_le_one_right hB (le_of_lt hr2)
  have hgt : goTrunc (B * r) = ⌊B * r⌋ := by rw [goTrunc, if_pos hBr0]
  have hb0 : 0 ≤ ⌊B⌋ := Int.floor_nonneg.mpr hB
  have hd00 : 0 ≤ ⌊B * r⌋ := Int.floor_nonneg.mpr hBr0
  have hd0b : ⌊B * r⌋ ≤ ⌊B⌋ := Int.floor_le_floor hBrB
  by_cases hble : ⌊B⌋ ≤ 0
  · have hb : ⌊B⌋ = 0 := le_antisymm hble hb0
    have hd0 : ⌊B * r⌋ = 0 := le_antisymm (hb ▸ hd0b) hd00
    rw [chooseRQ, if_pos hble]
    refine ⟨le_refl _, by norm_num, ?_⟩
    rw [hgt, hd0, hb]
    norm_num
  · have hb1 : 1 ≤ ⌊B⌋ := by omega
    have hbQ : (0 : ℚ) < (⌊B⌋ : ℚ) := by exact_mod_cast hb1.trans_lt' (by norm_num)
    rw [chooseRQ, if_neg hble]
    have hquot : (⌊B * r⌋ : ℚ) / (⌊B⌋ : ℚ) ≤ 1 :=
      (div_le_one hbQ).mpr (by exact_mod_cast hd0b)
    refine ⟨le_max_left _ _, max_le (by norm_num) hquot, ?_⟩
    rw [hgt]
    by_cases hcase : (17/20 : ℚ) ≤ (⌊B * r⌋ : ℚ) / (⌊B⌋ : ℚ)
    · rw [max_eq_right hcase]
      have hmc : (⌊B⌋ : ℚ) * ((⌊B * r⌋ : ℚ) / (⌊B⌋ : ℚ)) = (⌊B * r⌋ : ℚ) := by
        field_simp
      rw [hmc, Int.floor_intCast]
      split <;> omega
    · rw [max_eq_left (le_of_not_le hcase)]
      have hlt : (⌊B * r⌋ : ℚ) < (17/20 : ℚ) * (⌊B⌋ : ℚ) := by
        have := lt_of_not_le hcase
        rw [div_lt_iff₀ hbQ] at this
        linarith [this]
      have hup : ⌊B * r⌋ ≤ ⌊(17/20 : ℚ) * (⌊B⌋ : ℚ)⌋ := Int.le_floor.mpr (le_of_lt hlt)
      have hlow : ⌊(17/20 : ℚ) * (⌊B⌋ : ℚ)⌋ ≤ ⌊B * r⌋ := by
        apply Int.floor_le_floor
        calc (17/20 : ℚ) * (⌊B⌋ : ℚ) ≤ (17/20 : ℚ) * B :=
              mul_le_mul_of_nonneg_left (Int.floor_le B) (by norm_num)
          _ ≤ r * B := mul_le_mul_of_nonneg_right hr1 hB
          _ = B * r := mul_comm r B
      have heq : ⌊(⌊B⌋ : ℚ) * (17/20 : ℚ)⌋ = ⌊B * r⌋ := by
        rw [mul_comm]
        omega
      rw [heq]
      split <;> omega

theorem w1run : processBattleTurn w1B "tackle" 0 (9/10) (9/10) "t1" = .ok (w1After.1, w1After.2) := by
  cases hh : processBattleTurn w1B "tackle" 0 (9/10) (9/10) "t1" with
  | ok p => rw [w1After, hh]
  | error e =>
    exfalso
    revert hh
    norm_num [processBattleTurn, calculateDamage, goTrunc, findMoveIdx, eqFold,
      listModify, decPP, w1B, mkBattle, w1P, w1C, max_def]
    exact fun hc => Except.noConfusion hc

theorem w2run : processBattleTurn w2B "tackle" 0 (9/10) (9/10) "t1" = .ok (w2After.1, w2After.2) := by
  cases hh : processBattleTurn w2B "tackle" 0 (9/10) (9/10) "t1" with
  | ok p => rw [w2After, hh]
  | error e =>
    exfalso
    revert hh
    norm_num [processBattleTurn, calculateDamage, goTrunc, findMoveIdx, eqFold,
      listModify, decPP, w2B, mkBattle, w1P, w1C, max_def]
    exact fun hc => Except.noConfusion hc

theorem w6run : processBattleTurn w6B "tackle" 0 (9/10) (9/10) "t1" = .ok (w6After.1, w6After.2) := by
  cases hh : processBattleTurn w6B "tackle" 0 (9/10) (9/10) "t1" with
  | ok p => rw [w6After, hh]
  | error e =>
    exfalso
    revert hh
    norm_num [processBattleTurn, calculateDamage, goTrunc, findMoveIdx, eqFold,
      listModify, decPP, w6B, mkBattle, w1P, w6C, max_def]
    exact fun hc => Except.noConfusion hc

theorem w7run : processBattleTurn w7B "tackle" 0 (9/10) (9/10) "t1" = .ok (w7After.1, w7After.2) := by
  cases hh : processBattleTurn w7B "tackle" 0 (9/10) (9/10) "t1" with
  | ok p => rw [w7After, hh]
  | error e =>
    exfalso
    revert hh
    norm_num [processBattleTurn, calculateDamage, goTrunc, findMoveIdx, eqFold,
      listModify, decPP, w7B, mkBattle, w7P, w7C, w7tackle, max_def]
    exact fun hc => Except.noConfusion hc

theorem w8run : processBattleTurn w8B "tackle" 0 (9/10) (9/10) "t1" = .ok (w8After.1, w8After.2) := by
  cases hh : processBattleTurn w8B "tackle" 0 (9/10) (9/10) "t1" with
  | ok p => rw [w8After, hh]
  | error e =>
    exfalso
    revert hh
    norm_num [processBattleTurn, calculateDamage, goTrunc, findMoveIdx, eqFold,
      listModify, decPP, w8B, mkBattle, w1P, w1C, max_def]
    exact fun hc => Except.noConfusion hc

theorem w9run : processBattleTurn w9B "tackle" 0 (9/10) (9/10) "t1" = .ok (w9After.1, w9After.2) := by
  cases hh : processBattleTurn w9B "tackle" 0 (9/10) (9/10) "t1" with
  | ok p => rw [w9After, hh]
  | error e =>
    exfalso
    revert hh
    norm_num [processBattleTurn, calculateDamage, goTrunc, findMoveIdx, eqFold,
      listModify, decPP, w9B, mkBattle, w1P, w1C, max_def]
    exact fun hc => Except.noConfusion hc

/-- Claim C1 (counterexample): the remainingUses of the computer combatant's
moves CAN go negative.  Starting from a freshly created session whose computer
combatant has one move with 1 PP, two resolved rounds (computer move index 0,
damage factors 9/10) leave that move's CurrentPP at -1: the computer's random
selection excludes no moves and its decrement has no remaining-uses guard. -/
theorem computer_pp_negative_cex :
    cx1round2.map (fun p => (p.1.computerPokemon.moves.getD 0 default).currentPP) =
      .ok (-1) := by
  norm_num [cx1round2, processBattleTurn, calculateDamage, goTrunc, findMoveIdx, eqFold,
    listModify, decPP, cx1B, mkBattle, cx1P, cx1C, max_def, Except.bind, Except.map]

/-- Claim C1 (amended): for every resolved turn, each attacker that actually
acts has its used move's remainingUses decremented by exactly 1 (the player's
matched move at its found index, the computer's randomly selected move at its
index), other moves are untouched, and the player's moves never go negative
(the player's matched move is guarded to have remainingUses > 0 before any
mutation).  The computer's moves are excluded from the non-negativity claim. -/
theorem pp_accounting (battle b' : BattleState) (res : TurnResult) (name now : String)
    (cmIdx pIdx : Nat) (r1 r2 : ℚ)
    (hfind : findMoveIdx battle.playerPokemon.moves name = some pIdx)
    (h : processBattleTurn battle name cmIdx r1 r2 now = .ok (b', res)) :
    (b'.playerPokemon.moves =
      if res.playerAction.isSome then listModify decPP pIdx battle.playerPokemon.moves
      else battle.playerPokemon.moves) ∧
    (b'.computerPokemon.moves =
      if res.computerAction.isSome then listModify decPP cmIdx battle.computerPokemon.moves
      else battle.computerPokemon.moves) ∧
    (battle.playerPokemon.moves.all (fun m => decide (0 ≤ m.currentPP)) = true →
      b'.playerPokemon.moves.all (fun m => decide (0 ≤ m.currentPP)) = true) := by
  rw [processBattleTurn] at h
  rw [hfind] at h
  dsimp only at h
  by_cases hpp : (battle.playerPokemon.moves.getD pIdx default).currentPP ≤ 0
  · simp only [if_pos hpp] at h
    exact absurd h (by simp)
  · simp only [if_neg hpp] at h
    by_cases hsp : battle.playerPokemon.stats.speed ≥ battle.computerPokemon.stats.speed
    all_goals
      first
        | simp only [if_pos hsp] at h
        | simp only [if_neg hsp] at h
    all_goals
      simp only [eq_self_iff_true, if_true,
        show (("computer" : String) = "player") = False from eq_false (by decide),
        if_false] at h
    all_goals split at h
    all_goals try split at h
    all_goals
      rw [Except.ok.injEq, Prod.mk.injEq] at h
      obtain ⟨hb, hr⟩ := h
      subst hb
      subst hr
      refine ⟨by simp, by simp, ?_⟩
      first
        | exact fun hall => all_nonneg_modify _ _ hall hpp
        | exact fun hall => hall

/-- Witness for `pp_accounting` at a concrete one-round battle. -/
theorem pp_accounting_witness :
    (w1After.1.playerPokemon.moves =
      if w1After.2.playerAction.isSome then listModify decPP 0 w1B.playerPokemon.moves
      else w1B.playerPokemon.moves) ∧
    (w1After.1.computerPokemon.moves =
      if w1After.2.computerAction.isSome then listModify decPP 0 w1B.computerPokemon.moves
      else w1B.computerPokemon.moves) ∧
    (w1B.playerPokemon.moves.all (fun m => decide (0 ≤ m.currentPP)) = true →
      w1After.1.playerPokemon.moves.all (fun m => decide (0 ≤ m.currentPP)) = true) :=
  pp_accounting w1B w1After.1 w1After.2 "tackle" "t1" 0 0 (9/10) (9/10) (by decide) w1run

/-- Claim C2 (counterexample): turn numbers do not increment once per resolved
round.  Two consecutively resolved full rounds from a fresh session produce
turn history numbers [1, 1, 3, 3]: the second round carries number 3 (prior
history length 2 plus 1), not 2 as once-per-round incrementing requires. -/
theorem turn_number_skips_cex :
    cx2round2.map (fun p => p.1.turnHistory.map TurnAction.turn) = .ok [1, 1, 3, 3] := by
  norm_num [cx2round2, processBattleTurn, calculateDamage, goTrunc, findMoveIdx, eqFold,
    listModify, decPP, cx2B, mkBattle, cx2P, cx2C, max_def, Except.bind, Except.map]

/-- Claim C2 (amended): for every resolved turn, the history is append-only,
every action appended in the round carries the same turn number, equal to the
prior history length + 1, and a round appends one or two actions.  Since a
full round appends two actions, turn numbers advance by the number of appended
actions per round (1, 3, 5, ...), not by one per round. -/
theorem turn_numbering (battle b' : BattleState) (res : TurnResult) (name now : String)
    (cmIdx : Nat) (r1 r2 : ℚ)
    (h : processBattleTurn battle name cmIdx r1 r2 now = .ok (b', res)) :
    b'.turnHistory.take battle.turnHistory.length = battle.turnHistory ∧
    ((b'.turnHistory.drop battle.turnHistory.length).all
      (fun a => a.turn == battle.turnHistory.length + 1)) = true ∧
    (b'.turnHistory.length = battle.turnHistory.length + 1 ∨
      b'.turnHistory.length = battle.turnHistory.length + 2) := by
  rw [processBattleTurn] at h
  cases hfind : findMoveIdx battle.playerPokemon.moves name with
  | none => rw [hfind] at h; exact absurd h (by simp)
  | some pIdx =>
    rw [hfind] at h
    dsimp only at h
    by_cases hpp : (battle.playerPokemon.moves.getD pIdx default).currentPP ≤ 0
    · simp only [if_pos hpp] at h
      exact absurd h (by simp)
    · simp only [if_neg hpp] at h
      by_cases hsp : battle.playerPokemon.stats.speed ≥ battle.computerPokemon.stats.speed
      all_goals
        first
          | simp only [if_pos hsp] at h
          | simp only [if_neg hsp] at h
      all_goals
        simp only [eq_self_iff_true, if_true,
          show (("computer" : String) = "player") = False from eq_false (by decide),
          if_false] at h
      all_goals split at h
      all_goals try split at h
      all_goals
        rw [Except.ok.injEq, Prod.mk.injEq] at h
        obtain ⟨hb, hr⟩ := h
        subst hb
        refine ⟨?_, ?_, ?_⟩ <;>
          simp [List.append_assoc, List.take_left, List.drop_left, List.length_append]

/-- Witness for `turn_numbering` at a concrete one-round battle. -/
theorem turn_numbering_witness :
    w2After.1.turnHistory.take w2B.turnHistory.length = w2B.turnHistory ∧
    ((w2After.1.turnHistory.drop w2B.turnHistory.length).all
      (fun a => a.turn == w2B.turnHistory.length + 1)) = true ∧
    (w2After.1.turnHistory.length = w2B.turnHistory.length + 1 ∨
      w2After.1.turnHistory.length = w2B.turnHistory.length + 2) :=
  turn_numbering w2B w2After.1 w2After.2 "tackle" "t1" 0 (9/10) (9/10) w2run

/-- Claim C3 (counterexample): with attack 25, defense 22, power 5 the exact
base is 2.5; at drawn random factor 9/10 the code computes
trunc(2.5 * 0.9) = 2, while the claimed formula max(floor(floor(2.5)*0.9), 1)
= max(floor(1.8), 1) = 1.  The base is NOT floored before the random factor
is applied. -/
theorem damage_floor_order_cex :
    calculateDamage cx3A cx3D cx3M (9/10) = 2 ∧
    claimDamage 25 22 5 (9/10) = 1 := by
  constructor
  · norm_num [calculateDamage, goTrunc, cx3A, cx3D, cx3M]
  · norm_num [claimDamage]

/-- Claim C3 (amended): the returned damage is an integer >= 1 and equals the
spec's two-step formula max(floor(floor(base) * r'), 1) for SOME factor
r' in [0.85, 1.0] (exhibited by `chooseR`), though r' is generally not the
drawn factor: the code multiplies the unfloored base by the drawn factor and
truncates once at the end. -/
theorem calculateDamage_refines_claim (a d : BattlePokemon) (m : PokemonMove) (r : ℚ)
    (ha : 0 ≤ a.stats.attack) (hd : 0 < d.stats.defense) (hpw : 0 ≤ m.power)
    (hr1 : (17/20 : ℚ) ≤ r) (hr2 : r < 1) :
    (17/20 : ℚ) ≤ chooseR a d m r ∧ chooseR a d m r ≤ 1 ∧
    calculateDamage a d m r =
      claimDamage a.stats.attack d.stats.defense m.power (chooseR a d m r) := by
  have hB : (0 : ℚ) ≤ (((2 * 50 + 10) * a.stats.attack * m.power : Int) : ℚ) /
      (((250 * d.stats.defense : Int) : ℚ)) := by
    apply div_nonneg
    · exact_mod_cast mul_nonneg (mul_nonneg (by norm_num) ha) hpw
    · have : (0 : Int) ≤ 250 * d.stats.defense := by positivity
      exact_mod_cast this
  have hcore := refine_core _ r hB hr1 hr2
  exact hcore

/-- Witness for `calculateDamage_refines_claim` at attack 25, defense 22,
power 5, drawn factor 9/10. -/
theorem calculateDamage_refines_claim_witness :
    (17/20 : ℚ) ≤ chooseR cx3A cx3D cx3M (9/10) ∧ chooseR cx3A cx3D cx3M (9/10) ≤ 1 ∧
    calculateDamage cx3A cx3D cx3M (9/10) =
      claimDamage cx3A.stats.attack cx3D.stats.defense cx3M.power (chooseR cx3A cx3D cx3M (9/10)) :=
  calculateDamage_refines_claim cx3A cx3D cx3M (9/10)
    (by decide) (by decide) (by decide) (by norm_num) (by norm_num)

/-- Claim C4: whenever an act call fails a precondition (battle absent or not
owned, battle not active, not the player's turn, player move name not found,
or matched player move exhausted), the call returns a rejected result and the
battle store — hence every session in it — is left completely unchanged. -/
theorem act_atomicity (store : List (String × BattleState))
    (battleId userId moveName : String) (cmIdx : Nat) (r1 r2 : ℚ) (now : String)
    (hfail : actPreconditionFails store battleId userId moveName = true) :
    (makeMove store battleId userId moveName cmIdx r1 r2 now).1 = store ∧
    (makeMove store battleId userId moveName cmIdx r1 r2 now).2.isOk = false := by
  rw [makeMove]
  rw [actPreconditionFails] at hfail
  cases hl : loadBattleState store battleId userId with
  | error e => exact ⟨rfl, rfl⟩
  | ok battle =>
    rw [hl] at hfail
    dsimp only at hfail ⊢
    by_cases hst : battle.battleStatus ≠ "active"
    · rw [if_pos hst]; exact ⟨rfl, rfl⟩
    · rw [if_neg hst] at hfail ⊢
      by_cases htn : battle.currentTurn ≠ "player"
      · rw [if_pos htn]; exact ⟨rfl, rfl⟩
      · rw [if_neg htn] at hfail ⊢
        cases hfm : findMoveIdx battle.playerPokemon.moves moveName with
        | none =>
          rw [processBattleTurn_err_not_found battle moveName now cmIdx r1 r2 hfm]
          exact ⟨rfl, rfl⟩
        | some i =>
          rw [hfm] at hfail
          simp only [decide_eq_true_eq] at hfail
          rw [processBattleTurn_err_no_pp battle moveName now cmIdx i r1 r2 hfm hfail]
          exact ⟨rfl, rfl⟩

/-- Witness for `act_atomicity`: acting on a finished ("won") battle is
rejected and leaves the store unchanged. -/
theorem act_atomicity_witness :
    (makeMove w4Store "dave_4" "dave" "tackle" 0 (9/10) (9/10) "t9").1 = w4Store ∧
    (makeMove w4Store "dave_4" "dave" "tackle" 0 (9/10) (9/10) "t9").2.isOk = false :=
  act_atomicity w4Store "dave_4" "dave" "tackle" 0 (9/10) (9/10) "t9" (by decide)

/-- Claim C5: the store's load operation returns a session exactly when a
session with that battleId exists and its owning user identifier equals the
requesting user; every failure — battle absent or owned by another user —
produces the identical result `error "battle not found"`. -/
theorem load_ownership (store : List (String × BattleState)) (battleId userId : String) :
    (∀ b : BattleState, loadBattleState store battleId userId = .ok b ↔
      (storeGet store battleId = some b ∧ b.userId = userId)) ∧
    (loadBattleState store battleId userId = .error "battle not found" ∨
      (∃ b : BattleState, loadBattleState store battleId userId = .ok b)) := by
  rw [loadBattleState]
  cases hg : storeGet store battleId with
  | none =>
    dsimp only
    constructor
    · intro b
      constructor
      · intro hc; exact absurd hc (by simp)
      · rintro ⟨hc, -⟩; exact absurd hc (by simp)
    · exact Or.inl rfl
  | some battle =>
    dsimp only
    by_cases huid : battle.userId ≠ userId
    · rw [if_pos huid]
      constructor
      · intro b
        constructor
        · intro hc; exact absurd hc (by simp)
        · rintro ⟨hsome, hb⟩
          rw [Option.some.injEq] at hsome
          subst hsome
          exact absurd hb huid
      · exact Or.inl rfl
    · rw [if_neg huid]
      rw [not_not] at huid
      constructor
      · intro b
        constructor
        · intro hok
          rw [Except.ok.injEq] at hok
          subst hok
          exact ⟨rfl, huid⟩
        · rintro ⟨hsome, -⟩
          rw [Option.some.injEq] at hsome
          subst hsome
          rfl
      · exact Or.inr ⟨battle, rfl⟩

/-- Claim C6: when the first attacker's damage reduces the defender's
current hit points to 0, the session status becomes "won" if the player went
first (defender is the computer) and "lost" otherwise, the turn holder becomes
"finished", the result marks the battle ended with the first attacker as
winner, and exactly one TurnAction is appended — the second attacker never
acts. -/
theorem first_ko_ends_battle (battle b' : BattleState) (res : TurnResult) (name now : String)
    (cmIdx pIdx : Nat) (r1 r2 : ℚ)
    (hfind : findMoveIdx battle.playerPokemon.moves name = some pIdx)
    (hko : if battle.playerPokemon.stats.speed ≥ battle.computerPokemon.stats.speed
      then battle.computerPokemon.currentHP ≤
        calculateDamage battle.playerPokemon battle.computerPokemon
          (battle.playerPokemon.moves.getD pIdx default) r1
      else battle.playerPokemon.currentHP ≤
        calculateDamage battle.computerPokemon battle.playerPokemon
          (battle.computerPokemon.moves.getD cmIdx default) r1)
    (h : processBattleTurn battle name cmIdx r1 r2 now = .ok (b', res)) :
    b'.battleStatus = (if battle.playerPokemon.stats.speed ≥ battle.computerPokemon.stats.speed
      then "won" else "lost") ∧
    b'.currentTurn = "finished" ∧
    res.battleEnded = true ∧
    res.winner = (if battle.playerPokemon.stats.speed ≥ battle.computerPokemon.stats.speed
      then "player" else "computer") ∧
    b'.turnHistory.length = battle.turnHistory.length + 1 := by
  rw [processBattleTurn] at h
  rw [hfind] at h
  dsimp only at h
  by_cases hpp : (battle.playerPokemon.moves.getD pIdx default).currentPP ≤ 0
  · simp only [if_pos hpp] at h
    exact absurd h (by simp)
  · simp only [if_neg hpp] at h
    by_cases hsp : battle.playerPokemon.stats.speed ≥ battle.computerPokemon.stats.speed
    all_goals
      first
        | (simp only [if_pos hsp] at h hko; simp only [if_pos hsp])
        | (simp only [if_neg hsp] at h hko; simp only [if_neg hsp])
    all_goals
      simp only [eq_self_iff_true, if_true,
        show (("computer" : String) = "player") = False from eq_false (by decide),
        if_false] at h
    all_goals split at h
    all_goals
      first
        | (exfalso; omega)
        | (rw [Except.ok.injEq, Prod.mk.injEq] at h
           obtain ⟨hb, hr⟩ := h
           subst hb
           subst hr
           exact ⟨rfl, rfl, rfl, rfl, by simp [List.length_append]⟩)

/-- Witness for `first_ko_ends_battle`: a 10-HP computer combatant is knocked
out by the player's first attack (damage 15). -/
theorem first_ko_ends_battle_witness :
    w6After.1.battleStatus =
      (if w6B.playerPokemon.stats.speed ≥ w6B.computerPokemon.stats.speed
        then "won" else "lost") ∧
    w6After.1.currentTurn = "finished" ∧
    w6After.2.battleEnded = true ∧
    w6After.2.winner =
      (if w6B.playerPokemon.stats.speed ≥ w6B.computerPokemon.stats.speed
        then "player" else "computer") ∧
    w6After.1.turnHistory.length = w6B.turnHistory.length + 1 :=
  first_ko_ends_battle w6B w6After.1 w6After.2 "tackle" "t1" 0 0 (9/10) (9/10)
    (by decide)
    (by norm_num [w6B, mkBattle, w1P, w6C, calculateDamage, goTrunc, findMoveIdx, eqFold])
    w6run

/-- Claim C7: after every resolved turn, each combatant's currentHitPoints
lies in [0, maxHitPoints]: damage is subtracted with a floor at 0, hit points
never increase, and maxHitPoints is unchanged. -/
theorem hp_bounds (battle b' : BattleState) (res : TurnResult) (name now : String)
    (cmIdx : Nat) (r1 r2 : ℚ)
    (h : processBattleTurn battle name cmIdx r1 r2 now = .ok (b', res))
    (hp1 : 0 ≤ battle.playerPokemon.currentHP)
    (hp2 : battle.playerPokemon.currentHP ≤ battle.playerPokemon.maxHP)
    (hc1 : 0 ≤ battle.computerPokemon.currentHP)
    (hc2 : battle.computerPokemon.currentHP ≤ battle.computerPokemon.maxHP) :
    0 ≤ b'.playerPokemon.currentHP ∧
    b'.playerPokemon.currentHP ≤ b'.playerPokemon.maxHP ∧
    b'.playerPokemon.maxHP = battle.playerPokemon.maxHP ∧
    b'.playerPokemon.currentHP ≤ battle.playerPokemon.currentHP ∧
    0 ≤ b'.computerPokemon.currentHP ∧
    b'.computerPokemon.currentHP ≤ b'.computerPokemon.maxHP ∧
    b'.computerPokemon.maxHP = battle.computerPokemon.maxHP ∧
    b'.computerPokemon.currentHP ≤ battle.computerPokemon.currentHP := by
  rw [processBattleTurn] at h
  cases hfind : findMoveIdx battle.playerPokemon.moves name with
  | none => rw [hfind] at h; exact absurd h (by simp)
  | some pIdx =>
    rw [hfind] at h
    dsimp only at h
    by_cases hpp : (battle.playerPokemon.moves.getD pIdx default).currentPP ≤ 0
    · simp only [if_pos hpp] at h
      exact absurd h (by simp)
    · simp only [if_neg hpp] at h
      by_cases hsp : battle.playerPokemon.stats.speed ≥ battle.computerPokemon.stats.speed
      all_goals
        first
          | simp only [if_pos hsp] at h
          | simp only [if_neg hsp] at h
      all_goals
        simp only [eq_self_iff_true, if_true,
          show (("computer" : String) = "player") = False from eq_false (by decide),
          if_false] at h
      all_goals split at h
      all_goals try split at h
      all_goals
        rw [Except.ok.injEq, Prod.mk.injEq] at h
        obtain ⟨hb, hr⟩ := h
        subst hb
        refine ⟨?_, ?_, ?_, ?_, ?_, ?_, ?_, ?_⟩ <;> dsimp only <;>
          first
            | rfl
            | exact max_hp_lower _ _
            | exact max_hp_upper _ _ _ hp1 hp2 (one_le_calculateDamage _ _ _ _)
            | exact max_hp_upper _ _ _ hc1 hc2 (one_le_calculateDamage _ _ _ _)
            | exact max_hp_mono _ _ hp1 (one_le_calculateDamage _ _ _ _)
            | exact max_hp_mono _ _ hc1 (one_le_calculateDamage _ _ _ _)
            | omega

/-- Witness for `hp_bounds` at a concrete one-round battle. -/
theorem hp_bounds_witness :
    0 ≤ w7After.1.playerPokemon.currentHP ∧
    w7After.1.playerPokemon.currentHP ≤ w7After.1.playerPokemon.maxHP ∧
    w7After.1.playerPokemon.maxHP = w7B.playerPokemon.maxHP ∧
    w7After.1.playerPokemon.currentHP ≤ w7B.playerPokemon.currentHP ∧
    0 ≤ w7After.1.computerPokemon.currentHP ∧
    w7After.1.computerPokemon.currentHP ≤ w7After.1.computerPokemon.maxHP ∧
    w7After.1.computerPokemon.maxHP = w7B.computerPokemon.maxHP ∧
    w7After.1.computerPokemon.currentHP ≤ w7B.computerPokemon.currentHP :=
  hp_bounds w7B w7After.1 w7After.2 "tackle" "t1" 0 (9/10) (9/10) w7run
    (by decide) (by decide) (by decide) (by decide)

/-- Claim C8: battle creation establishes the consistency invariant
(status "active" with the player holding the turn), and turn resolution on an
active session preserves it: the turn holder becomes "finished" exactly when
the status becomes "won" or "lost", and otherwise the turn returns to the
player. -/
theorem status_consistency (uid : String) (us : Int) (pp cp : BattlePokemon) (nw : String)
    (battle b' : BattleState) (res : TurnResult) (name now : String)
    (cmIdx : Nat) (r1 r2 : ℚ)
    (hactive : battle.battleStatus = "active")
    (h : processBattleTurn battle name cmIdx r1 r2 now = .ok (b', res)) :
    (statusConsistent (mkBattle uid us pp cp nw) ∧
      (mkBattle uid us pp cp nw).battleStatus = "active" ∧
      (mkBattle uid us pp cp nw).currentTurn = "player") ∧
    (statusConsistent b' ∧
      ((b'.battleStatus = "won" ∨ b'.battleStatus = "lost") ↔ b'.currentTurn = "finished")) := by
  refine ⟨⟨by simp [statusConsistent, mkBattle], rfl, rfl⟩, ?_⟩
  rw [processBattleTurn] at h
  cases hfind : findMoveIdx battle.playerPokemon.moves name with
  | none => rw [hfind] at h; exact absurd h (by simp)
  | some pIdx =>
    rw [hfind] at h
    dsimp only at h
    by_cases hpp : (battle.playerPokemon.moves.getD pIdx default).currentPP ≤ 0
    · simp only [if_pos hpp] at h
      exact absurd h (by simp)
    · simp only [if_neg hpp] at h
      by_cases hsp : battle.playerPokemon.stats.speed ≥ battle.computerPokemon.stats.speed
      all_goals
        first
          | simp only [if_pos hsp] at h
          | simp only [if_neg hsp] at h
      all_goals
        simp only [eq_self_iff_true, if_true,
          show (("computer" : String) = "player") = False from eq_false (by decide),
          if_false] at h
      all_goals split at h
      all_goals try split at h
      all_goals
        rw [Except.ok.injEq, Prod.mk.injEq] at h
        obtain ⟨hb, hr⟩ := h
        subst hb
        simp [statusConsistent, hactive]

/-- Witness for `status_consistency` at a concrete created battle and a
concrete resolved round. -/
theorem status_consistency_witness :
    (statusConsistent (mkBattle "gail" 7 w1P w1C "t0") ∧
      (mkBattle "gail" 7 w1P w1C "t0").battleStatus = "active" ∧
      (mkBattle "gail" 7 w1P w1C "t0").currentTurn = "player") ∧
    (statusConsistent w8After.1 ∧
      ((w8After.1.battleStatus = "won" ∨ w8After.1.battleStatus = "lost") ↔
        w8After.1.currentTurn = "finished")) :=
  status_consistency "gail" 7 w1P w1C "t0" w8B w8After.1 w8After.2 "tackle" "t1" 0
    (9/10) (9/10) rfl w8run

/-- Claim C9: in every resolved round the combatant with the greater-or-equal
speed stat acts first — the first appended action's actor is the player
exactly when the player's speed is >= the computer's, and in particular a
speed tie gives the player the first action. -/
theorem speed_order (battle b' : BattleState) (res : TurnResult) (name now : String)
    (cmIdx : Nat) (r1 r2 : ℚ)
    (h : processBattleTurn battle name cmIdx r1 r2 now = .ok (b', res)) :
    ((b'.turnHistory.drop battle.turnHistory.length).map TurnAction.actor).head? =
      some (if battle.playerPokemon.stats.speed ≥ battle.computerPokemon.stats.speed
        then "player" else "computer") ∧
    (battle.playerPokemon.stats.speed = battle.computerPokemon.stats.speed →
      ((b'.turnHistory.drop battle.turnHistory.length).map TurnAction.actor).head? =
        some "player") := by
  rw [processBattleTurn] at h
  cases hfind : findMoveIdx battle.playerPokemon.moves name with
  | none => rw [hfind] at h; exact absurd h (by simp)
  | some pIdx =>
    rw [hfind] at h
    dsimp only at h
    by_cases hpp : (battle.playerPokemon.moves.getD pIdx default).currentPP ≤ 0
    · simp only [if_pos hpp] at h
      exact absurd h (by simp)
    · simp only [if_neg hpp] at h
      by_cases hsp : battle.playerPokemon.stats.speed ≥ battle.computerPokemon.stats.speed
      all_goals
        first
          | simp only [if_pos hsp] at h
          | simp only [if_neg hsp] at h
      all_goals
        simp only [eq_self_iff_true, if_true,
          show (("computer" : String) = "player") = False from eq_false (by decide),
          if_false] at h
      all_goals split at h
      all_goals try split at h
      all_goals
        rw [Except.ok.injEq, Prod.mk.injEq] at h
        obtain ⟨hb, hr⟩ := h
        subst hb
        refine ⟨?_, fun hteq => ?_⟩ <;>
          first
            | (simp [List.append_assoc, List.drop_left, hsp]; done)
            | (exfalso; omega)

/-- Witness for `speed_order` at a concrete battle (player speed 90 vs
computer speed 50). -/
theorem speed_order_witness :
    ((w9After.1.turnHistory.drop w9B.turnHistory.length).map TurnAction.actor).head? =
      some (if w9B.playerPokemon.stats.speed ≥ w9B.computerPokemon.stats.speed
        then "player" else "computer") ∧
    (w9B.playerPokemon.stats.speed = w9B.computerPokemon.stats.speed →
      ((w9After.1.turnHistory.drop w9B.turnHistory.length).map TurnAction.actor).head? =
        some "player") :=
  speed_order w9B w9After.1 w9After.2 "tackle" "t1" 0 (9/10) (9/10) w9run

/-- Claim C10: when the defender's defense stat is strictly positive (and
stats are otherwise in range), calculateDamage is a well-defined integer that
is at least 1 (the minimum-damage clamp) and at most the floored exact base —
the division by 250 * defense is a genuine division. -/
theorem damage_min_one (a d : BattlePokemon) (m : PokemonMove) (r : ℚ)
    (hd : 0 < d.stats.defense) (ha : 0 ≤ a.stats.attack) (hpw : 0 ≤ m.power)
    (hr1 : (17/20 : ℚ) ≤ r) (hr2 : r < 1) :
    1 ≤ calculateDamage a d m r ∧
    calculateDamage a d m r ≤
      max 1 ⌊(((2 * 50 + 10) * a.stats.attack * m.power : Int) : ℚ) /
        (((250 * d.stats.defense : Int) : ℚ))⌋ := by
  refine ⟨one_le_calculateDamage a d m r, ?_⟩
  have hB : (0 : ℚ) ≤ (((2 * 50 + 10) * a.stats.attack * m.power : Int) : ℚ) /
      (((250 * d.stats.defense : Int) : ℚ)) := by
    apply div_nonneg
    · exact_mod_cast mul_nonneg (mul_nonneg (by norm_num) ha) hpw
    · have : (0 : Int) ≤ 250 * d.stats.defense := by positivity
      exact_mod_cast this
  have hr0 : (0 : ℚ) ≤ r := le_trans (by norm_num) hr1
  have hBr0 := mul_nonneg hB hr0
  have hBrB := mul_le_of_le_one_right hB (le_of_lt hr2)
  have hd0b := Int.floor_le_floor hBrB
  show (if goTrunc _ < 1 then 1 else goTrunc _) ≤ _
  rw [goTrunc, if_pos hBr0]
  split <;> omega

/-- Witness for `damage_min_one` at attack 25, defense 22, power 5. -/
theorem damage_min_one_witness :
    1 ≤ calculateDamage w10A w10D w10M (9/10) ∧
    calculateDamage w10A w10D w10M (9/10) ≤
      max 1 ⌊(((2 * 50 + 10) * w10A.stats.attack * w10M.power : Int) : ℚ) /
        (((250 * w10D.stats.defense : Int) : ℚ))⌋ :=
  damage_min_one w10A w10D w10M (9/10)
    (by decide) (by decide) (by decide) (by norm_num) (by norm_num)

end Battle
